import Mathlib

/-!
Verification of the graph-explorer and chat-session state engines of the
GP front-end dashboard.  The definitions below are a shallow embedding of
the handlers in `src/app/products/ProductsClient.tsx` (the `ProductGraph`
component) and `src/app/agent/AgentConsole.tsx`.  JavaScript `Set`s of
string ids are modelled as duplicate-free insertion-ordered lists, and
JavaScript string truthiness (`s ||`, `if (s)`) is modelled by an
emptiness test.
-/

/-! ## Graph explorer data model (ProductGraph) -/

/-- A node of the fetched graph dataset (`GraphNode` in the source; the
opaque `extra` attribute bag is not modelled, no handler reads it). -/
structure GraphNode where
  id : String
  name : Option String := none
  type : Option String := none
  label : Option String := none
  description : Option String := none
  aliases : Option (List String) := none
  deriving Repr, DecidableEq

/-- An edge of the fetched graph dataset (`GraphEdge` in the source). -/
structure GraphEdge where
  id : Option String := none
  source : String
  target : String
  type : Option String := none
  label : Option String := none
  deriving Repr, DecidableEq

/-- The graph fetch response (`GraphResponse` in the source). -/
structure GraphResponse where
  nodes : List GraphNode
  edges : List GraphEdge
  deriving Repr, DecidableEq

/-- JS template interpolation of an optional string field: an `undefined`
value prints as the literal string "undefined". -/
def jsShowOpt (o : Option String) : String :=
  match o with
  | some s => s
  | none => "undefined"

/-- The id under which an edge is keyed everywhere in the component:
the source expression is `edge.id || edge.source-edge.type-edge.target`
(a template literal), so an absent or empty `id` falls back to the
derived id. -/
def edgeId (e : GraphEdge) : String :=
  match e.id with
  | some i => if i = "" then e.source ++ "-" ++ jsShowOpt e.type ++ "-" ++ e.target else i
  | none => e.source ++ "-" ++ jsShowOpt e.type ++ "-" ++ e.target

/-- The visibility state of the explorer: the two `Set<string>` state
variables `visibleNodeIds` and `visibleEdgeIds`. -/
structure VisibleState where
  visibleNodeIds : List String
  visibleEdgeIds : List String
  deriving Repr, DecidableEq

/-- `Set.add`: append the element if it is not yet present. -/
def setAdd (l : List String) (x : String) : List String :=
  if x ∈ l then l else l ++ [x]

/-- One iteration of the `forEach` loop in `handleEntityClick`: if the
edge touches the clicked entity, add its id and both endpoints. -/
def selectStep (nid : String) (acc : VisibleState) (e : GraphEdge) : VisibleState :=
  if e.source = nid ∨ e.target = nid then
    { visibleEdgeIds := setAdd acc.visibleEdgeIds (edgeId e),
      visibleNodeIds := setAdd (setAdd acc.visibleNodeIds e.source) e.target }
  else acc

/-- `handleEntityClick`: rebuild the visible sets from scratch, starting
from the clicked entity alone, then one pass over all edges. -/
def handleEntityClick (data : GraphResponse) (entity : GraphNode) : VisibleState :=
  data.edges.foldl (selectStep entity.id)
    { visibleNodeIds := [entity.id], visibleEdgeIds := [] }

/-- One iteration of the `forEach` loop in `handleExpandNextLevel`: a
touching edge whose id is already visible is skipped, otherwise its id
and endpoints are added. -/
def expandStep (nid : String) (acc : VisibleState) (e : GraphEdge) : VisibleState :=
  if e.source = nid ∨ e.target = nid then
    if edgeId e ∈ acc.visibleEdgeIds then acc
    else
      { visibleEdgeIds := setAdd acc.visibleEdgeIds (edgeId e),
        visibleNodeIds := setAdd (setAdd acc.visibleNodeIds e.source) e.target }
  else acc

/-- `handleExpandNextLevel`: union the not-yet-visible edges touching
`nid` (and their endpoints) into the current visible sets.  When nothing
was added the component skips the `setState` calls, which leaves the
state identical, so the plain fold models both branches. -/
def handleExpandNextLevel (data : GraphResponse) (nid : String) (s : VisibleState) : VisibleState :=
  data.edges.foldl (expandStep nid) s

/-- JS `a || b` for an optional string against a string default. -/
def strOr (a : Option String) (b : String) : String :=
  match a with
  | some s => if s = "" then b else s
  | none => b

/-- JS `a || b` on two optional strings (an empty string is falsy). -/
def optOr (a b : Option String) : Option String :=
  match a with
  | some s => if s = "" then b else some s
  | none => b

/-- An element handed to the rendering library: either a node datum or an
edge datum (the fields the `elements` memo computes). -/
inductive CyElement where
  | node (id : String) (label : String) (type : Option String)
  | edge (id : String) (source target : String) (label : Option String) (type : Option String)
  deriving Repr, DecidableEq

/-- The node datum built by the `elements` memo: `label: n.label || n.name || n.id`. -/
def nodeElement (n : GraphNode) : CyElement :=
  CyElement.node n.id (strOr n.label (strOr n.name n.id)) n.type

/-- The edge datum built by the `elements` memo: `label: e.label || e.type`. -/
def edgeElement (e : GraphEdge) : CyElement :=
  CyElement.edge (edgeId e) e.source e.target (optOr e.label e.type) e.type

/-- The `elements` memo: the visible nodes followed by the visible edges.
A node is kept iff its id is in `visibleNodeIds`; an edge is kept iff its
(explicit or derived) id is in `visibleEdgeIds`. -/
def elements (data : GraphResponse) (s : VisibleState) : List CyElement :=
  (data.nodes.filter (fun n => s.visibleNodeIds.contains n.id)).map nodeElement
    ++ (data.edges.filter (fun e => s.visibleEdgeIds.contains (edgeId e))).map edgeElement

/-- A user-driven visibility operation: clicking an entity in the entity
list, or expanding a node from the context menu. -/
inductive GraphOp where
  | selectE (n : GraphNode)
  | expand (nid : String)
  deriving Repr, DecidableEq

/-- Apply one operation to the current visibility state. -/
def applyGraphOp (d : GraphResponse) (s : VisibleState) : GraphOp → VisibleState
  | GraphOp.selectE n => handleEntityClick d n
  | GraphOp.expand nid => handleExpandNextLevel d nid s

/-- Apply a sequence of operations in order. -/
def runGraphOps (d : GraphResponse) (s : VisibleState) (ops : List GraphOp) : VisibleState :=
  ops.foldl (applyGraphOp d) s

/-- The visibility state right after a fetch (`fetchGraph` resets both
sets to empty). -/
def emptyVisible : VisibleState := { visibleNodeIds := [], visibleEdgeIds := [] }

/-- The ids of the nodes of a dataset. -/
def nodeIds (d : GraphResponse) : List String := d.nodes.map GraphNode.id

/-- A dataset is well formed when every edge endpoint names a node of the
dataset. -/
def wellFormed (d : GraphResponse) : Prop :=
  ∀ e ∈ d.edges, e.source ∈ nodeIds d ∧ e.target ∈ nodeIds d

/-- In the UI a `selectE` operation can only be issued on a node of the
dataset (the entity list is built by grouping `fullData.nodes`); an
`expand` may carry any id string. -/
def opValid (d : GraphResponse) : GraphOp → Bool
  | GraphOp.selectE n => d.nodes.contains n
  | GraphOp.expand _ => true

/-! ## Chat session engine data model (AgentConsole) -/

/-- JS `String.prototype.trim`: drop Unicode whitespace from both ends
(structurally recursive on the character list, so it evaluates in the
kernel). -/
def jsTrim (t : String) : String :=
  String.mk
    (((t.data.dropWhile Char.isWhitespace).reverse.dropWhile Char.isWhitespace).reverse)

/-- The role of a transcript message. -/
inductive Role where
  | user
  | agent
  deriving Repr, DecidableEq

/-- One entry of a reasoning trace (`TraceItem` in the source; the opaque
`payload` record is modelled as an opaque optional string). -/
structure TraceItem where
  step : String
  stage : Option String := none
  level : Option String := none
  time : Option String := none
  payload : Option String := none
  deriving Repr, DecidableEq

/-- A transcript message (`ChatMessage` in the source). -/
structure ChatMessage where
  role : Role
  text : String
  citations : Option (List String) := none
  traces : Option (List TraceItem) := none
  deriving Repr, DecidableEq

/-- The fixed placeholder used by `finalizeAgentMessage` when the
accumulated buffer is empty. -/
def emptyResponseText : String := "（空响应）"

/-- The fixed message the `onerror` handler substitutes for an
empty-response placeholder. -/
def connFailedText : String := "连接失败，请稍后重试。"

/-- The synthetic trace entry the `onerror` handler appends. -/
def streamFailTrace : TraceItem :=
  { step := "流式连接失败", stage := some "error", level := some "error" }

/-- The engine state held by `AgentConsole`: the transcript, the input
box, the per-turn stream state (`streamBuffer`, `streamTraces`,
`isStreaming`, mirrored by the refs of the source), the session identity
and whether an `EventSource` connection is open. -/
structure AgentState where
  messages : List ChatMessage
  input : String
  isStreaming : Bool
  streamBuffer : String
  streamTraces : List TraceItem
  sessionId : Option String
  activeSessionTitle : Option String
  connectionOpen : Bool
  deriving Repr, DecidableEq

/-- `stopStream`: close the connection and discard the per-turn stream
state without finalizing it. -/
def stopStream (s : AgentState) : AgentState :=
  { s with connectionOpen := false, streamBuffer := "", streamTraces := [],
           isStreaming := false }

/-- `appendAgentToken`: append one token delta to the buffer. -/
def appendAgentToken (s : AgentState) (delta : String) : AgentState :=
  { s with streamBuffer := s.streamBuffer ++ delta }

/-- `appendTrace`: append one trace entry. -/
def appendTrace (s : AgentState) (t : TraceItem) : AgentState :=
  { s with streamTraces := s.streamTraces ++ [t] }

/-- `finalizeAgentMessage`: merge the buffer and traces into a new agent
message appended to the transcript (the trace argument wins when it is a
non-empty list; an empty buffer becomes the placeholder), then clear the
stream state. -/
def finalizeAgentMessage (s : AgentState) (citations : Option (List String))
    (traces : Option (List TraceItem)) : AgentState :=
  let finalText := s.streamBuffer
  let finalTraces :=
    match traces with
    | some ts => if 0 < ts.length then ts else s.streamTraces
    | none => s.streamTraces
  { s with
    messages := s.messages ++
      [{ role := Role.agent,
         text := if finalText = "" then emptyResponseText else finalText,
         citations := citations,
         traces := some finalTraces }],
    streamBuffer := "", streamTraces := [], isStreaming := false }

/-- The payload of a terminal `done` event. -/
structure StreamDone where
  messageId : String := ""
  citations : Option (List String) := none
  trace : Option (List TraceItem) := none
  deriving Repr, DecidableEq

/-- The payload of a `token` event. -/
structure StreamToken where
  delta : String
  messageId : String := ""
  deriving Repr, DecidableEq

/-- The payload of a `meta` event. -/
structure StreamMeta where
  label : String
  value : String
  deriving Repr, DecidableEq

/-- The payload of a `trace` event. -/
structure StreamTrace where
  step : String
  stage : Option String := none
  level : Option String := none
  time : Option String := none
  payload : Option String := none
  messageId : Option String := none
  sessionId : Option String := none
  deriving Repr, DecidableEq

/-- The `done` listener: finalize with the terminal payload's citations
and trace, then close the connection. -/
def onDone (s : AgentState) (p : StreamDone) : AgentState :=
  let s1 := finalizeAgentMessage s p.citations p.trace
  { s1 with connectionOpen := false }

/-- The `meta` listener: adopt a session id only for a `session_id` label
with a truthy (non-empty) value. -/
def onMeta (s : AgentState) (p : StreamMeta) : AgentState :=
  if p.label = "session_id" ∧ p.value ≠ "" then { s with sessionId := some p.value }
  else s

/-- The `trace` listener: an event with a falsy `step` is dropped,
otherwise its fields are appended as a trace entry. -/
def onTraceEvent (s : AgentState) (p : StreamTrace) : AgentState :=
  if p.step = "" then s
  else appendTrace s
    { step := p.step, stage := p.stage, level := p.level, time := p.time,
      payload := p.payload }

/-- The transcript update inside the `onerror` handler: when the just
finalized last message carries the empty-response placeholder, its text
is replaced by the connection-failure message. -/
def errorPatch (ms : List ChatMessage) : List ChatMessage :=
  match ms.getLast? with
  | none => [{ role := Role.agent, text := connFailedText }]
  | some last =>
    if last.role = Role.agent ∧ last.text = emptyResponseText then
      ms.dropLast ++ [{ last with text := connFailedText }]
    else ms

/-- The `onerror` handler: close the connection, finalize with the traces
accumulated so far plus the synthetic failure entry, then patch the last
message. -/
def onError (s : AgentState) : AgentState :=
  let s1 := { s with connectionOpen := false }
  let s2 := finalizeAgentMessage s1 none (some (s.streamTraces ++ [streamFailTrace]))
  { s2 with messages := errorPatch s2.messages }

/-- A non-terminal stream event of one turn. -/
inductive StreamEvent where
  | token (p : StreamToken)
  | traceEv (p : StreamTrace)
  | metaEv (p : StreamMeta)
  deriving Repr, DecidableEq

/-- Dispatch one non-terminal event to its listener. -/
def applyStreamEvent (s : AgentState) : StreamEvent → AgentState
  | StreamEvent.token p => appendAgentToken s p.delta
  | StreamEvent.traceEv p => onTraceEvent s p
  | StreamEvent.metaEv p => onMeta s p

/-- The terminal event of one turn. -/
inductive StreamTerminal where
  | done (p : StreamDone)
  | error
  deriving Repr, DecidableEq

/-- Dispatch the terminal event of a turn. -/
def finishTurn (s : AgentState) : StreamTerminal → AgentState
  | StreamTerminal.done p => onDone s p
  | StreamTerminal.error => onError s

/-- One whole turn: the events in receipt order, then the terminal. -/
def runTurn (s : AgentState) (es : List StreamEvent) (t : StreamTerminal) : AgentState :=
  finishTurn (es.foldl applyStreamEvent s) t

/-- The concatenation, in receipt order, of the token deltas of a list of
stream events (the reference value the spec speaks about). -/
def concatDeltas : List StreamEvent → String
  | [] => ""
  | StreamEvent.token p :: es => p.delta ++ concatDeltas es
  | _ :: es => concatDeltas es

/-- The request carried by one `EventSource` connection: the message and
the optional `session_id` query parameter. -/
structure StreamRequest where
  message : String
  sessionId : Option String
  deriving Repr, DecidableEq

/-- `canSend`: the input must trim to something non-empty and no turn may
be streaming. -/
def canSend (s : AgentState) : Bool :=
  decide (0 < (jsTrim s.input).length) && !s.isStreaming

/-- `startSSEStream`: stop any previous stream, then open one connection
whose request carries the query and, when the current session id is
truthy, the `session_id` parameter. -/
def startSSEStream (s : AgentState) (query : String) : AgentState × StreamRequest :=
  let s1 := stopStream s
  let req : StreamRequest :=
    { message := query,
      sessionId :=
        match s.sessionId with
        | some v => if v = "" then none else some v
        | none => none }
  ({ s1 with connectionOpen := true, isStreaming := true }, req)

/-- `handleSend`: a no-op returning no request when `canSend` fails,
otherwise append the trimmed user message, clear the input and start the
stream. -/
def handleSend (s : AgentState) : AgentState × Option StreamRequest :=
  if canSend s then
    let text := jsTrim s.input
    let s1 := { s with
      messages := s.messages ++ [{ role := Role.user, text := text }],
      input := "" }
    let p := startSSEStream s1 text
    (p.1, some p.2)
  else (s, none)

/-- A session summary (`AgentSession` in the source). -/
structure AgentSession where
  session_id : String
  title : String
  created_at : Option String := none
  updated_at : Option String := none
  deriving Repr, DecidableEq

/-- A stored message of a past session (`AgentMessage` in the source;
`tool_payload` is modelled by its only consumed field, the optional
`trace` list). -/
structure AgentMessage where
  id : Int
  role : String
  content : Option String := none
  tool_name : Option String := none
  tool_payload_trace : Option (List TraceItem) := none
  deriving Repr, DecidableEq

/-- The session-detail response (`AgentSessionDetailResponse`). -/
structure AgentSessionDetailResponse where
  session : AgentSession
  messages : List AgentMessage
  deriving Repr, DecidableEq

/-- `mapHistoryMessages`: keep only user/assistant rows, trim the
content (an empty result becomes the placeholder), and attach the stored
trace list of an `agent_trace` tool payload.  The source additionally
filters trace entries whose `step` is not a string, which is the
identity on the typed model. -/
def mapHistoryMessages (items : List AgentMessage) : List ChatMessage :=
  items.foldl
    (fun acc item =>
      match (if item.role = "assistant" then some Role.agent
             else if item.role = "user" then some Role.user else none) with
      | none => acc
      | some role =>
        let text := jsTrim (item.content.getD "")
        let traces :=
          if role = Role.agent ∧ item.tool_name = some "agent_trace" then
            item.tool_payload_trace
          else none
        acc ++ [{ role := role,
                  text := if text = "" then emptyResponseText else text,
                  traces := traces }])
    []

/-- `loadHistorySession` (success path): stop any in-flight stream, then
replace the transcript with the mapped fetched messages and adopt the
fetched session's id and title (a falsy title becomes null). -/
def loadHistorySession (s : AgentState) (resp : AgentSessionDetailResponse) : AgentState :=
  let s1 := stopStream s
  { s1 with
    messages := mapHistoryMessages resp.messages,
    sessionId := some resp.session.session_id,
    activeSessionTitle :=
      if resp.session.title = "" then none else some resp.session.title }

/-! ## Helper lemmas -/

theorem mem_setAdd {l : List String} {a x : String} :
    x ∈ setAdd l a ↔ x = a ∨ x ∈ l := by
  unfold setAdd
  split
  · constructor
    · exact fun h => Or.inr h
    · rintro (rfl | h) <;> assumption
  · simp [or_comm]

theorem mem_selectStep_nodes {nid : String} {acc : VisibleState} {e : GraphEdge}
    {x : String} :
    x ∈ (selectStep nid acc e).visibleNodeIds ↔
      x ∈ acc.visibleNodeIds ∨
        ((e.source = nid ∨ e.target = nid) ∧ (x = e.source ∨ x = e.target)) := by
  unfold selectStep
  split
  · next h => simp only [mem_setAdd]; tauto
  · next h => tauto

theorem mem_selectStep_edges {nid : String} {acc : VisibleState} {e : GraphEdge}
    {y : String} :
    y ∈ (selectStep nid acc e).visibleEdgeIds ↔
      y ∈ acc.visibleEdgeIds ∨
        ((e.source = nid ∨ e.target = nid) ∧ y = edgeId e) := by
  unfold selectStep
  split
  · next h => simp only [mem_setAdd]; tauto
  · next h => tauto

theorem selectFold_nodes (nid : String) (es : List GraphEdge) (acc : VisibleState)
    (x : String) :
    x ∈ (es.foldl (selectStep nid) acc).visibleNodeIds ↔
      x ∈ acc.visibleNodeIds ∨
        ∃ e ∈ es, (e.source = nid ∨ e.target = nid) ∧ (x = e.source ∨ x = e.target) := by
  induction es generalizing acc with
  | nil => simp
  | cons e es ih =>
    rw [List.foldl_cons, ih, mem_selectStep_nodes, List.exists_mem_cons_iff]
    aesop

theorem selectFold_edges (nid : String) (es : List GraphEdge) (acc : VisibleState)
    (y : String) :
    y ∈ (es.foldl (selectStep nid) acc).visibleEdgeIds ↔
      y ∈ acc.visibleEdgeIds ∨
        ∃ e ∈ es, (e.source = nid ∨ e.target = nid) ∧ y = edgeId e := by
  induction es generalizing acc with
  | nil => simp
  | cons e es ih =>
    rw [List.foldl_cons, ih, mem_selectStep_edges, List.exists_mem_cons_iff]
    aesop

theorem expandStep_nodes_mono {nid : String} {acc : VisibleState} {e : GraphEdge}
    {x : String} (h : x ∈ acc.visibleNodeIds) :
    x ∈ (expandStep nid acc e).visibleNodeIds := by
  unfold expandStep
  split
  · split
    · exact h
    · simp only [mem_setAdd]; tauto
  · exact h

theorem expandStep_edges_mono {nid : String} {acc : VisibleState} {e : GraphEdge}
    {y : String} (h : y ∈ acc.visibleEdgeIds) :
    y ∈ (expandStep nid acc e).visibleEdgeIds := by
  unfold expandStep
  split
  · split
    · exact h
    · simp only [mem_setAdd]; tauto
  · exact h

theorem expandFold_nodes_mono {nid : String} (es : List GraphEdge) (acc : VisibleState)
    {x : String} (h : x ∈ acc.visibleNodeIds) :
    x ∈ (es.foldl (expandStep nid) acc).visibleNodeIds := by
  induction es generalizing acc with
  | nil => exact h
  | cons e es ih => exact ih _ (expandStep_nodes_mono h)

theorem expandFold_edges_mono {nid : String} (es : List GraphEdge) (acc : VisibleState)
    {y : String} (h : y ∈ acc.visibleEdgeIds) :
    y ∈ (es.foldl (expandStep nid) acc).visibleEdgeIds := by
  induction es generalizing acc with
  | nil => exact h
  | cons e es ih => exact ih _ (expandStep_edges_mono h)

theorem expandFold_covers {nid : String} (es : List GraphEdge) (acc : VisibleState) :
    ∀ e ∈ es, (e.source = nid ∨ e.target = nid) →
      edgeId e ∈ (es.foldl (expandStep nid) acc).visibleEdgeIds := by
  induction es generalizing acc with
  | nil => intro e he; exact absurd he (List.not_mem_nil e)
  | cons e es ih =>
    intro e' he' ht
    rcases List.mem_cons.mp he' with rfl | he'
    · refine expandFold_edges_mono es _ ?_
      unfold expandStep
      rw [if_pos ht]
      split
      · assumption
      · simp only [mem_setAdd]; tauto
    · exact ih _ e' he' ht

theorem expandFold_id {nid : String} (es : List GraphEdge) (acc : VisibleState)
    (h : ∀ e ∈ es, (e.source = nid ∨ e.target = nid) → edgeId e ∈ acc.visibleEdgeIds) :
    es.foldl (expandStep nid) acc = acc := by
  induction es with
  | nil => rfl
  | cons e es ih =>
    have hstep : expandStep nid acc e = acc := by
      unfold expandStep
      split
      · next ht => rw [if_pos (h e (List.mem_cons_self e es) ht)]
      · rfl
    rw [List.foldl_cons, hstep]
    exact ih fun e' he' ht => h e' (List.mem_cons_of_mem e he') ht

theorem mem_expandStep_nodes {nid : String} {acc : VisibleState} {e : GraphEdge}
    {x : String} (h : x ∈ (expandStep nid acc e).visibleNodeIds) :
    x ∈ acc.visibleNodeIds ∨ x = e.source ∨ x = e.target := by
  unfold expandStep at h
  revert h
  split
  · split
    · tauto
    · simp only [mem_setAdd]; tauto
  · tauto

theorem mem_expandStep_edges {nid : String} {acc : VisibleState} {e : GraphEdge}
    {y : String} (h : y ∈ (expandStep nid acc e).visibleEdgeIds) :
    y ∈ acc.visibleEdgeIds ∨ y = edgeId e := by
  unfold expandStep at h
  revert h
  split
  · split
    · tauto
    · simp only [mem_setAdd]; tauto
  · tauto

theorem expandFold_nodes_sub {nid : String} (es : List GraphEdge) (acc : VisibleState)
    {x : String} (h : x ∈ (es.foldl (expandStep nid) acc).visibleNodeIds) :
    x ∈ acc.visibleNodeIds ∨ ∃ e ∈ es, x = e.source ∨ x = e.target := by
  induction es generalizing acc with
  | nil => exact Or.inl h
  | cons e es ih =>
    rcases ih _ h with h1 | ⟨e', he', hx⟩
    · rcases mem_expandStep_nodes h1 with h2 | h2 | h2
      · exact Or.inl h2
      · exact Or.inr ⟨e, List.mem_cons_self e es, Or.inl h2⟩
      · exact Or.inr ⟨e, List.mem_cons_self e es, Or.inr h2⟩
    · exact Or.inr ⟨e', List.mem_cons_of_mem e he', hx⟩

theorem expandFold_edges_sub {nid : String} (es : List GraphEdge) (acc : VisibleState)
    {y : String} (h : y ∈ (es.foldl (expandStep nid) acc).visibleEdgeIds) :
    y ∈ acc.visibleEdgeIds ∨ ∃ e ∈ es, y = edgeId e := by
  induction es generalizing acc with
  | nil => exact Or.inl h
  | cons e es ih =>
    rcases ih _ h with h1 | ⟨e', he', hy⟩
    · rcases mem_expandStep_edges h1 with h2 | h2
      · exact Or.inl h2
      · exact Or.inr ⟨e, List.mem_cons_self e es, h2⟩
    · exact Or.inr ⟨e', List.mem_cons_of_mem e he', hy⟩

/-- The visibility invariant of the spec: every visible edge id keys an
edge of the dataset, and (for well-formed datasets) every visible node id
names a node of the dataset. -/
def visInv (d : GraphResponse) (s : VisibleState) : Prop :=
  (∀ y ∈ s.visibleEdgeIds, ∃ e ∈ d.edges, y = edgeId e) ∧
  (wellFormed d → ∀ x ∈ s.visibleNodeIds, x ∈ nodeIds d)

theorem visInv_apply (d : GraphResponse) (s : VisibleState) (op : GraphOp)
    (hop : opValid d op = true) (h : visInv d s) : visInv d (applyGraphOp d s op) := by
  cases op with
  | selectE n =>
    have hn : n ∈ d.nodes := by simpa [opValid] using hop
    constructor
    · intro y hy
      unfold applyGraphOp handleEntityClick at hy
      rcases (selectFold_edges n.id d.edges _ y).mp hy with h1 | ⟨e, he, _, rfl⟩
      · exact absurd h1 (List.not_mem_nil y)
      · exact ⟨e, he, rfl⟩
    · intro hwf x hx
      unfold applyGraphOp handleEntityClick at hx
      rcases (selectFold_nodes n.id d.edges _ x).mp hx with h1 | ⟨e, he, _, hx'⟩
      · have : x = n.id := by simpa using h1
        subst this
        exact List.mem_map.mpr ⟨n, hn, rfl⟩
      · rcases hx' with rfl | rfl
        · exact (hwf e he).1
        · exact (hwf e he).2
  | expand nid =>
    constructor
    · intro y hy
      unfold applyGraphOp handleExpandNextLevel at hy
      rcases expandFold_edges_sub d.edges s hy with h1 | ⟨e, he, rfl⟩
      · exact h.1 y h1
      · exact ⟨e, he, rfl⟩
    · intro hwf x hx
      unfold applyGraphOp handleExpandNextLevel at hx
      rcases expandFold_nodes_sub d.edges s hx with h1 | ⟨e, he, hx'⟩
      · exact h.2 hwf x h1
      · rcases hx' with rfl | rfl
        · exact (hwf e he).1
        · exact (hwf e he).2

theorem visInv_run (d : GraphResponse) (ops : List GraphOp) (s : VisibleState)
    (hops : ∀ op ∈ ops, opValid d op = true) (h : visInv d s) :
    visInv d (runGraphOps d s ops) := by
  induction ops generalizing s with
  | nil => exact h
  | cons op ops ih =>
    exact ih _ (fun op' hop' => hops op' (List.mem_cons_of_mem op hop'))
      (visInv_apply d s op (hops op (List.mem_cons_self op ops)) h)

/-! ## Concrete example data -/

/-- Example node A. -/
def nA : GraphNode := { id := "A" }

/-- Example node B. -/
def nB : GraphNode := { id := "B" }

/-- Example node C. -/
def nC : GraphNode := { id := "C" }

/-- Example edge A → B. -/
def eAB : GraphEdge := { source := "A", target := "B", type := some "rel" }

/-- Example edge B → C. -/
def eBC : GraphEdge := { source := "B", target := "C", type := some "rel" }

/-- Example well-formed dataset with nodes A, B, C and edges A–B, B–C. -/
def dEx : GraphResponse := { nodes := [nA, nB, nC], edges := [eAB, eBC] }

/-- Example operation sequence: select A, then expand B. -/
def opsEx : List GraphOp := [GraphOp.selectE nA, GraphOp.expand "B"]

/-- An edge whose target names no node of the dataset. -/
def eDangling : GraphEdge := { source := "A", target := "B", type := some "t" }

/-- A dataset with a dangling edge: node B does not exist. -/
def dBad : GraphResponse := { nodes := [nA], edges := [eDangling] }

/-! ## Claims about the graph explorer -/

/-- C1: for every fetched dataset and every node of it, `handleEntityClick`
replaces the visible sets — regardless of the prior visible state — with
exactly the clicked node, the ids of the edges touching it (explicit id or
derived source-type-target id), and the source and target ids of those
edges; nothing else is visible afterwards. -/
theorem selectEntity_exact (d : GraphResponse) (n : GraphNode) (_hn : n ∈ d.nodes)
    (prior : VisibleState) :
    (∀ x, x ∈ (applyGraphOp d prior (GraphOp.selectE n)).visibleNodeIds ↔
        x = n.id ∨ ∃ e ∈ d.edges, (e.source = n.id ∨ e.target = n.id) ∧
          (x = e.source ∨ x = e.target)) ∧
    (∀ y, y ∈ (applyGraphOp d prior (GraphOp.selectE n)).visibleEdgeIds ↔
        ∃ e ∈ d.edges, (e.source = n.id ∨ e.target = n.id) ∧ y = edgeId e) := by
  constructor
  · intro x
    show x ∈ (handleEntityClick d n).visibleNodeIds ↔ _
    unfold handleEntityClick
    rw [selectFold_nodes]
    simp
  · intro y
    show y ∈ (handleEntityClick d n).visibleEdgeIds ↔ _
    unfold handleEntityClick
    rw [selectFold_edges]
    simp

/-- Witness for C1: selecting A in the example dataset from a non-empty
prior visible state makes B visible. -/
theorem selectEntity_exact_witness :
    nA ∈ dEx.nodes ∧
      "B" ∈ (applyGraphOp dEx { visibleNodeIds := ["Z"], visibleEdgeIds := ["zz"] }
          (GraphOp.selectE nA)).visibleNodeIds :=
  ⟨by decide,
   ((selectEntity_exact dEx nA (by decide)
      { visibleNodeIds := ["Z"], visibleEdgeIds := ["zz"] }).1 "B").mpr (by decide)⟩

/-- C2 counterexample: the dataset `dBad` has one edge whose target "B"
names no node; after selecting A that edge sits in the rendered
`elements`, so a malformed edge is emitted, not silently excluded. -/
theorem malformed_edge_rendered :
    edgeElement eDangling ∈ elements dBad (handleEntityClick dBad nA) ∧
      "B" ∉ nodeIds dBad ∧ eDangling ∈ dBad.edges := by decide

/-- C2 (amended): an edge of the dataset appears in the rendered
`elements` iff its (explicit or derived) id is in the visible edge set;
the memo never checks node visibility or node existence, so an edge whose
endpoint is missing from the dataset is still emitted. -/
theorem elements_edge_iff (d : GraphResponse) (s : VisibleState) (e : GraphEdge)
    (he : e ∈ d.edges) :
    edgeElement e ∈ elements d s ↔ edgeId e ∈ s.visibleEdgeIds := by
  unfold elements
  rw [List.mem_append]
  constructor
  · rintro (h | h)
    · exfalso
      rcases List.mem_map.mp h with ⟨n, _, hn⟩
      simp [nodeElement, edgeElement] at hn
    · rcases List.mem_map.mp h with ⟨e', he', heq⟩
      have hid : edgeId e' = edgeId e := by
        simpa [edgeElement, CyElement.edge.injEq] using congrArg (fun c =>
          match c with
          | CyElement.node i _ _ => i
          | CyElement.edge i _ _ _ _ => i) heq
      have hc := List.of_mem_filter he'
      rw [hid] at hc
      simpa using hc
  · intro h
    refine Or.inr (List.mem_map.mpr ⟨e, List.mem_filter.mpr ⟨he, by simpa using h⟩, rfl⟩)

/-- Witness for C2's amended theorem: the dangling edge of `dBad` is an
edge of the dataset and is rendered exactly when its id is visible. -/
theorem elements_edge_iff_witness :
    eDangling ∈ dBad.edges ∧
      edgeElement eDangling ∈
        elements dBad { visibleNodeIds := [], visibleEdgeIds := ["A-t-B"] } :=
  ⟨by decide,
   (elements_edge_iff dBad { visibleNodeIds := [], visibleEdgeIds := ["A-t-B"] }
      eDangling (by decide)).mpr (by decide)⟩

/-- C3 counterexample: on the dataset `dBad` with a dangling edge, the
valid operation "select A" puts the id "B" into the visible node set even
though no node of the dataset has id "B". -/
theorem visible_node_outside_dataset :
    nA ∈ dBad.nodes ∧
      "B" ∈ (runGraphOps dBad emptyVisible [GraphOp.selectE nA]).visibleNodeIds ∧
      "B" ∉ nodeIds dBad := by decide

/-- C3 (amended): after any sequence of select/expand operations starting
from the post-fetch empty visible state, every visible edge id keys an
edge of the dataset; provided the dataset is well formed (every edge
endpoint names a node), every visible node id names a node of the
dataset. -/
theorem runGraphOps_ids_in_dataset (d : GraphResponse) (ops : List GraphOp)
    (hops : ∀ op ∈ ops, opValid d op = true) :
    (∀ y ∈ (runGraphOps d emptyVisible ops).visibleEdgeIds,
        ∃ e ∈ d.edges, y = edgeId e) ∧
    (wellFormed d →
      ∀ x ∈ (runGraphOps d emptyVisible ops).visibleNodeIds, x ∈ nodeIds d) := by
  have h0 : visInv d emptyVisible := by
    constructor
    · intro y hy; exact absurd hy (List.not_mem_nil y)
    · intro _ x hx; exact absurd hx (List.not_mem_nil x)
  exact visInv_run d ops emptyVisible hops h0

/-- Witness for C3's amended theorem on the example dataset and the
sequence select A, expand B. -/
theorem runGraphOps_ids_in_dataset_witness :
    (∀ op ∈ opsEx, opValid dEx op = true) ∧ wellFormed dEx ∧
      ∀ x ∈ (runGraphOps dEx emptyVisible opsEx).visibleNodeIds, x ∈ nodeIds dEx :=
  ⟨by decide, by unfold wellFormed; decide,
   (runGraphOps_ids_in_dataset dEx opsEx (by decide)).2 (by unfold wellFormed; decide)⟩

/-- C6: `handleExpandNextLevel` is idempotent — a second application with
the same node id on any dataset and any visible state changes nothing. -/
theorem expand_idempotent (d : GraphResponse) (nid : String) (s : VisibleState) :
    handleExpandNextLevel d nid (handleExpandNextLevel d nid s) =
      handleExpandNextLevel d nid s := by
  unfold handleExpandNextLevel
  exact expandFold_id _ _ (fun e he ht => expandFold_covers _ _ e he ht)

/-- C7: `handleExpandNextLevel` is monotonic — both visible sets after the
call contain the sets before the call, for any node id. -/
theorem expand_monotonic (d : GraphResponse) (nid : String) (s : VisibleState) :
    s.visibleNodeIds ⊆ (handleExpandNextLevel d nid s).visibleNodeIds ∧
    s.visibleEdgeIds ⊆ (handleExpandNextLevel d nid s).visibleEdgeIds :=
  ⟨fun _ h => expandFold_nodes_mono _ _ h, fun _ h => expandFold_edges_mono _ _ h⟩

/-! ## Helper lemmas for the chat engine -/

theorem streamFold_buffer (es : List StreamEvent) (s : AgentState) :
    (es.foldl applyStreamEvent s).streamBuffer = s.streamBuffer ++ concatDeltas es := by
  induction es generalizing s with
  | nil =>
    show s.streamBuffer = s.streamBuffer ++ ""
    cases s.streamBuffer with
    | mk data => show String.mk data = String.mk (data ++ []); rw [List.append_nil]
  | cons ev es ih =>
    rw [List.foldl_cons, ih]
    cases ev with
    | token p =>
      show (appendAgentToken s p.delta).streamBuffer ++ concatDeltas es =
        s.streamBuffer ++ (p.delta ++ concatDeltas es)
      rw [← String.append_assoc]
      rfl
    | traceEv p =>
      show (onTraceEvent s p).streamBuffer ++ concatDeltas es = _
      have hb : (onTraceEvent s p).streamBuffer = s.streamBuffer := by
        unfold onTraceEvent; split <;> rfl
      rw [hb]; rfl
    | metaEv p =>
      show (onMeta s p).streamBuffer ++ concatDeltas es = _
      have hb : (onMeta s p).streamBuffer = s.streamBuffer := by
        unfold onMeta; split <;> rfl
      rw [hb]; rfl

theorem streamFold_messages (es : List StreamEvent) (s : AgentState) :
    (es.foldl applyStreamEvent s).messages = s.messages := by
  induction es generalizing s with
  | nil => rfl
  | cons ev es ih =>
    rw [List.foldl_cons, ih]
    cases ev with
    | token p => rfl
    | traceEv p =>
      show (onTraceEvent s p).messages = s.messages
      unfold onTraceEvent; split <;> rfl
    | metaEv p =>
      show (onMeta s p).messages = s.messages
      unfold onMeta; split <;> rfl

theorem finalize_messages (s : AgentState) (citations : Option (List String))
    (traces : Option (List TraceItem)) :
    (finalizeAgentMessage s citations traces).messages =
      s.messages ++
        [{ role := Role.agent,
           text := if s.streamBuffer = "" then emptyResponseText else s.streamBuffer,
           citations := citations,
           traces := some (match traces with
             | some ts => if 0 < ts.length then ts else s.streamTraces
             | none => s.streamTraces) }] := rfl

theorem errorPatch_concat (ms : List ChatMessage) (m : ChatMessage)
    (hrole : m.role = Role.agent) :
    errorPatch (ms ++ [m]) =
      ms ++ [if m.text = emptyResponseText then { m with text := connFailedText } else m] := by
  unfold errorPatch
  rw [List.getLast?_concat, List.dropLast_concat]
  by_cases h : m.text = emptyResponseText
  · simp [hrole, h]
  · simp [hrole, h]

theorem string_length_pos {t : String} (h : t ≠ "") : 0 < t.length := by
  cases t with
  | mk data =>
    cases data with
    | nil => exact absurd rfl h
    | cons c cs => simp [String.length]

theorem onError_messages (s : AgentState) :
    (onError s).messages =
      s.messages ++
        [{ role := Role.agent,
           text := if s.streamBuffer = "" ∨ s.streamBuffer = emptyResponseText
                   then connFailedText else s.streamBuffer,
           citations := none,
           traces := some (s.streamTraces ++ [streamFailTrace]) }] := by
  have hlen : 0 < (s.streamTraces ++ [streamFailTrace]).length := by simp
  show errorPatch (s.messages ++
    [{ role := Role.agent,
       text := if s.streamBuffer = "" then emptyResponseText else s.streamBuffer,
       citations := none,
       traces := some (if 0 < (s.streamTraces ++ [streamFailTrace]).length
                       then s.streamTraces ++ [streamFailTrace] else s.streamTraces) }]) = _
  rw [if_pos hlen, errorPatch_concat _ _ rfl]
  by_cases h0 : s.streamBuffer = ""
  · simp [h0]
  · by_cases h1 : s.streamBuffer = emptyResponseText
    · simp [h0, h1]
    · simp [h0, h1]

/-! ## Example chat states -/

/-- The stream state right after `startSSEStream`: empty buffer and
traces, streaming. -/
def streamingInit : AgentState :=
  { messages := [], input := "", isStreaming := true, streamBuffer := "",
    streamTraces := [], sessionId := none, activeSessionTitle := none,
    connectionOpen := true }

/-- A mid-turn state whose buffer already holds "Hello". -/
def sHello : AgentState :=
  { messages := [], input := "", isStreaming := true, streamBuffer := "Hello",
    streamTraces := [{ step := "thinking" }], sessionId := none,
    activeSessionTitle := none, connectionOpen := true }

/-- An idle state whose input is whitespace only. -/
def sIdle : AgentState :=
  { messages := [], input := "   ", isStreaming := false, streamBuffer := "",
    streamTraces := [], sessionId := none, activeSessionTitle := none,
    connectionOpen := false }

/-- A busy state with an in-flight turn and an adopted first session. -/
def sBusy : AgentState :=
  { messages := [{ role := Role.user, text := "old" }], input := "x",
    isStreaming := true, streamBuffer := "buf",
    streamTraces := [{ step := "t" }], sessionId := some "sess-1",
    activeSessionTitle := some "first", connectionOpen := true }

/-- An example session-detail response for a second session. -/
def respEx : AgentSessionDetailResponse :=
  { session := { session_id := "sess-2", title := "second" },
    messages := [{ id := 1, role := "user", content := some "hi there" },
                 { id := 2, role := "assistant", content := some "reply" },
                 { id := 3, role := "tool", content := some "ignored" }] }

/-! ## Claims about the chat session engine -/

/-- C4 counterexample: a turn with no token deltas that ends in a
connection error finalizes to the connection-failure message, not to the
empty-response placeholder the claim names. -/
theorem errored_empty_turn_not_placeholder :
    (runTurn streamingInit [] StreamTerminal.error).messages.map ChatMessage.text =
        [connFailedText] ∧
      connFailedText ≠ emptyResponseText ∧ concatDeltas [] = "" := by decide

/-- C4 (amended): starting a turn from an empty buffer, the finalized
message's text is the concatenation of the token deltas in receipt order;
an empty concatenation becomes the empty-response placeholder under a
`done` terminal and the connection-failure message under an error
terminal (which also replaces a concatenation equal to the placeholder
itself). -/
theorem turn_final_text (s : AgentState) (hs : s.streamBuffer = "")
    (es : List StreamEvent) (p : StreamDone) :
    ((runTurn s es (StreamTerminal.done p)).messages.getLast?.map ChatMessage.text) =
        some (if concatDeltas es = "" then emptyResponseText else concatDeltas es) ∧
    ((runTurn s es StreamTerminal.error).messages.getLast?.map ChatMessage.text) =
        some (if concatDeltas es = "" ∨ concatDeltas es = emptyResponseText
              then connFailedText else concatDeltas es) := by
  have hbuf : (es.foldl applyStreamEvent s).streamBuffer = concatDeltas es := by
    rw [streamFold_buffer, hs, String.empty_append]
  constructor
  · have h1 := finalize_messages (es.foldl applyStreamEvent s) p.citations p.trace
    show ((finalizeAgentMessage (es.foldl applyStreamEvent s) p.citations p.trace
        ).messages.getLast?.map ChatMessage.text) = _
    rw [h1, List.getLast?_concat, Option.map_some']
    rw [hbuf]
  · have h2 := onError_messages (es.foldl applyStreamEvent s)
    show ((onError (es.foldl applyStreamEvent s)).messages.getLast?.map ChatMessage.text) = _
    rw [h2, List.getLast?_concat, Option.map_some']
    rw [hbuf]

/-- Witness for C4's amended theorem: the deltas "Hel" then "lo" followed
by `done` finalize to the text "Hello". -/
theorem turn_final_text_witness :
    streamingInit.streamBuffer = "" ∧
      ((runTurn streamingInit
          [StreamEvent.token { delta := "Hel" }, StreamEvent.token { delta := "lo" }]
          (StreamTerminal.done {})).messages.getLast?.map ChatMessage.text) =
        some "Hello" := by
  refine ⟨rfl, ?_⟩
  rw [(turn_final_text streamingInit rfl
      [StreamEvent.token { delta := "Hel" }, StreamEvent.token { delta := "lo" }] {}).1]
  decide

/-- C5: a connection error always finalizes the turn into one agent
message appended to the transcript, whose trace list is the accumulated
traces plus exactly the synthetic failure entry of level "error"; the
engine is idle afterwards, and a buffer that is neither empty nor the
placeholder string is kept verbatim as the message text. -/
theorem onError_finalizes (s : AgentState) :
    ∃ m, (onError s).messages = s.messages ++ [m] ∧
      m.role = Role.agent ∧
      m.traces = some (s.streamTraces ++ [streamFailTrace]) ∧
      streamFailTrace.level = some "error" ∧
      (s.streamBuffer ≠ "" → s.streamBuffer ≠ emptyResponseText →
        m.text = s.streamBuffer) ∧
      (onError s).isStreaming = false ∧
      (onError s).connectionOpen = false ∧
      (onError s).streamBuffer = "" ∧
      (onError s).streamTraces = [] := by
  refine ⟨_, onError_messages s, rfl, rfl, rfl, ?_, rfl, rfl, rfl, rfl⟩
  intro h0 h1
  simp [h0, h1]

/-- Witness for C5: from the state whose buffer holds "Hello", the error
handler appends exactly one agent message with text "Hello" and stops
streaming. -/
theorem onError_finalizes_witness :
    (onError sHello).messages.map ChatMessage.text = ["Hello"] ∧
      (onError sHello).isStreaming = false := by
  obtain ⟨m, h1, _, _, _, h5, h6, _⟩ := onError_finalizes sHello
  have hm : m.text = "Hello" := h5 (by decide) (by decide)
  constructor
  · rw [h1]
    show [m.text] = ["Hello"]
    rw [hm]
  · exact h6

/-- C8: `handleSend` is a no-op when the input trims to the empty string
or a turn is already streaming — the state is unchanged and no streaming
request is produced. -/
theorem handleSend_noop (s : AgentState)
    (h : jsTrim s.input = "" ∨ s.isStreaming = true) :
    handleSend s = (s, none) := by
  have hc : canSend s = false := by
    unfold canSend
    rcases h with h | h
    · rw [h]
      rfl
    · rw [h]
      simp
  unfold handleSend
  rw [hc]
  rfl

/-- Witness for C8: on a whitespace-only input nothing happens. -/
theorem handleSend_noop_witness :
    jsTrim sIdle.input = "" ∧ handleSend sIdle = (sIdle, none) :=
  ⟨by decide, handleSend_noop sIdle (Or.inl (by decide))⟩

/-- C9: for every prior engine state, `loadHistorySession` (on a fetched
response) closes and discards any in-flight stream without finalizing it,
replaces the transcript wholesale with the mapped fetched messages,
adopts the fetched session id and title, and a subsequent send on a
non-blank input opens a request carrying the adopted session id. -/
theorem loadHistorySession_spec (s : AgentState) (resp : AgentSessionDetailResponse)
    (q : String) (hq : jsTrim q ≠ "") (hid : resp.session.session_id ≠ "") :
    (loadHistorySession s resp).connectionOpen = false ∧
    (loadHistorySession s resp).isStreaming = false ∧
    (loadHistorySession s resp).streamBuffer = "" ∧
    (loadHistorySession s resp).streamTraces = [] ∧
    (loadHistorySession s resp).messages = mapHistoryMessages resp.messages ∧
    (loadHistorySession s resp).sessionId = some resp.session.session_id ∧
    (loadHistorySession s resp).activeSessionTitle =
      (if resp.session.title = "" then none else some resp.session.title) ∧
    (handleSend { loadHistorySession s resp with input := q }).2 =
      some { message := jsTrim q, sessionId := some resp.session.session_id } := by
  refine ⟨rfl, rfl, rfl, rfl, rfl, rfl, rfl, ?_⟩
  have hc : canSend { loadHistorySession s resp with input := q } = true := by
    unfold canSend
    have hlen : 0 < (jsTrim q).length := string_length_pos hq
    simp [hlen]
    rfl
  unfold handleSend
  rw [hc]
  show some
      ({ message := jsTrim q,
         sessionId := if resp.session.session_id = "" then none
                      else some resp.session.session_id } : StreamRequest) = _
  rw [if_neg hid]

/-- Witness for C9: loading the second example session from a busy state
and then sending "hello" attaches the adopted id "sess-2". -/
theorem loadHistorySession_spec_witness :
    (jsTrim "hello" ≠ "" ∧ respEx.session.session_id ≠ "") ∧
      (handleSend { loadHistorySession sBusy respEx with input := "hello" }).2 =
        some ({ message := jsTrim "hello",
                sessionId := some respEx.session.session_id } : StreamRequest) :=
  ⟨⟨by decide, by decide⟩,
   (loadHistorySession_spec sBusy respEx "hello" (by decide)
      (by decide)).2.2.2.2.2.2.2⟩

/-- C10: a meta event updates the session id exactly when its label is
"session_id" and its value is non-empty; any other meta event leaves the
whole state unchanged, and the handler can never set the session id to
the empty string. -/
theorem onMeta_sessionId (s : AgentState) (p : StreamMeta) :
    ((p.label = "session_id" ∧ p.value ≠ "") →
        (onMeta s p).sessionId = some p.value) ∧
    ((p.label ≠ "session_id" ∨ p.value = "") → onMeta s p = s) ∧
    ((onMeta s p).sessionId = some "" → s.sessionId = some "") := by
  unfold onMeta
  by_cases h : p.label = "session_id" ∧ p.value ≠ ""
  · rw [if_pos h]
    refine ⟨fun _ => rfl, ?_, ?_⟩
    · rintro (hl | hv)
      · exact absurd h.1 hl
      · exact absurd hv h.2
    · intro hs
      exact absurd (Option.some.inj hs) h.2
  · rw [if_neg h]
    exact ⟨fun hc => absurd hc h, fun _ => rfl, fun hs => hs⟩

/-- Witness for C10: a session_id meta event with value "sess-9" is
adopted. -/
theorem onMeta_sessionId_witness :
    (("session_id" : String) = "session_id" ∧ ("sess-9" : String) ≠ "") ∧
      (onMeta sIdle { label := "session_id", value := "sess-9" }).sessionId =
        some "sess-9" :=
  ⟨⟨rfl, by decide⟩,
   (onMeta_sessionId sIdle { label := "session_id", value := "sess-9" }).1
     ⟨rfl, by decide⟩⟩
